import Mathlib

/-!
Shallow embedding of the RENIEC RPC responder (`reniec_server.py`) and of the
load-test client (`smoke-test/client_load_test.py`).

Conventions of the embedding:
* JSON values decoded by `json.loads` are modelled by `Json`; numeric literals
  are modelled as integers and `Json.null` also stands for Python `None`
  (which is what `json.loads` produces for JSON `null`, and what `dict.get`
  returns for an absent key).
* Machine-level byte strings are modelled as Lean `String`s.
* Latency samples (Python floats) are modelled as rationals; the float
  computation `int(round((p / 100.0) * (len(xs) - 1)))` is modelled as exact
  rational arithmetic followed by round-half-to-even (Python 3 `round`).
* Fallible operations (broker publish, storage queries, reconnect) take their
  outcome from explicit environment fields; an exception escaping a handler is
  an explicit `Option ExcClass` value.
-/

namespace Reniec

/-- JSON/Python values as produced by `json.loads`. -/
inductive Json where
  | null
  | bool (b : Bool)
  | num (n : Int)
  | str (s : String)
  | arr (xs : List Json)
  | obj (kvs : List (String × Json))

/-- Python truthiness (`bool(x)`) for decoded JSON values. -/
def truthy : Json → Bool
  | Json.null => false
  | Json.bool b => b
  | Json.num n => n != 0
  | Json.str s => s != ""
  | Json.arr xs => !xs.isEmpty
  | Json.obj kvs => !kvs.isEmpty

/-- Is the value a JSON object (a Python `dict`, the only values with `.get`)? -/
def isObjJson : Json → Bool
  | Json.obj _ => true
  | _ => false

/-! ### Decimal rendering (used by Python `str(int)` and by `f"{n:08d}"`) -/

/-- Little-endian decimal digits of `n`, with explicit fuel (the fuel `n + 1`
always suffices). `natDigitsRevAux fuel 0 = [0]` for positive fuel, matching
`str(0) = "0"`. -/
def natDigitsRevAux : Nat → Nat → List Nat
  | 0, _ => []
  | fuel + 1, n => if n < 10 then [n] else n % 10 :: natDigitsRevAux fuel (n / 10)

/-- Big-endian decimal digits of `n`. -/
def natReprDigits (n : Nat) : List Nat :=
  (natDigitsRevAux (n + 1) n).reverse

/-- The character of one decimal digit. -/
def dChar (d : Nat) : Char := Char.ofNat (48 + d)

/-- Decimal rendering of a natural number, as Python `str` produces it. -/
def natStr (n : Nat) : String := String.mk ((natReprDigits n).map dChar)

/-- Decimal rendering of an integer, as Python `str` produces it. -/
def intStr : Int → String
  | Int.ofNat n => natStr n
  | Int.negSucc n => "-" ++ natStr (n + 1)

/-- ASCII single quote, used by Python `repr` of strings. -/
def quoteChar : Char := Char.ofNat 39

def joinComma (l : List String) : String := String.intercalate ", " l

mutual
/-- Python `repr` of a decoded JSON value (string escaping is not modelled;
only the digit characters matter downstream, and quotes are not digits). -/
def pyRepr : Json → String
  | Json.null => "None"
  | Json.bool true => "True"
  | Json.bool false => "False"
  | Json.num n => intStr n
  | Json.str s => String.singleton quoteChar ++ s ++ String.singleton quoteChar
  | Json.arr xs => "[" ++ joinComma (pyReprList xs) ++ "]"
  | Json.obj kvs => "\x7b" ++ joinComma (pyReprPairs kvs) ++ "\x7d"

def pyReprList : List Json → List String
  | [] => []
  | x :: xs => pyRepr x :: pyReprList xs

def pyReprPairs : List (String × Json) → List String
  | [] => []
  | kv :: xs =>
      (String.singleton quoteChar ++ kv.1 ++ String.singleton quoteChar ++ ": " ++ pyRepr kv.2)
        :: pyReprPairs xs
end

/-- Python `str` of a decoded JSON value (`str` of a `str` has no quotes;
containers render via `repr`). -/
def pyStr : Json → String
  | Json.str s => s
  | v => pyRepr v

/-! ### `normalize_dni` (reniec_server.py, lines 174-188) -/

/-- Python `str.strip()`: drop leading and trailing whitespace. -/
def pyStrip (s : String) : String :=
  String.mk (((s.data.dropWhile Char.isWhitespace).reverse.dropWhile Char.isWhitespace).reverse)

/-- The digit characters remaining after `str(value).strip()` and the
digit filter (`"".join(ch for ch in s if ch.isdigit())`). -/
def stripDigits (v : Json) : String :=
  String.mk ((pyStrip (pyStr v)).data.filter Char.isDigit)

/-- `normalize_dni`: force the incoming value to a string, strip everything
that is not a digit, and accept only an exactly-8-digit result. -/
def normalize_dni : Json → Option String
  | Json.null => none
  | v =>
      let t := String.mk ((pyStrip (pyStr v)).data.filter Char.isDigit)
      if t.length = 8 && t.data.all Char.isDigit then some t else none

/-! ### Storage model (`personas` table, `get_person`) -/

/-- One row of the `personas` table, shaped as the dict built by `get_person`
(the four mandatory fields plus the optional ones that are added when the
column is not NULL). -/
structure Person where
  dni : String
  nombres : String
  apellidoPat : String
  apellidoMat : String
  fechaNaci : Option String
  sexo : Option String
  direccion : Option String
  estadoCivil : Option String
  lugarNacimiento : Option String
  deriving DecidableEq, Repr

/-- The storage connection: its table contents (keyed by the `dni` primary
key) and whether the physical connection is alive. A query on a dead
connection raises. -/
structure Db where
  table : List (String × Person)
  healthy : Bool
  deriving DecidableEq, Repr

/-- `get_person`: re-normalize the input, return `none` (no row) without
touching the connection when normalization fails, otherwise run the
`SELECT ... WHERE dni = %s` query, which raises on a dead connection. -/
def get_person (db : Db) (dniInput : Json) : Except Unit (Option Person) :=
  match normalize_dni dniInput with
  | none => Except.ok none
  | some d =>
      if db.healthy then Except.ok (db.table.lookup d) else Except.error ()

/-! ### Multi-shape key extraction (`on_message`, lines 278-290) -/

/-- Lookup in a decoded JSON object; later duplicate keys win, as in
`json.loads`. Absent keys give `Json.null` (Python `dict.get` returns
`None`). -/
def objLookup (kvs : List (String × Json)) (k : String) : Json :=
  kvs.foldl (fun acc kv => if kv.1 = k then kv.2 else acc) Json.null

/-- Python `x.get(k)`: only objects (dicts) have `.get`; on anything else the
attribute access raises. -/
def dictGet : Json → String → Except Unit Json
  | Json.obj kvs, k => Except.ok (objLookup kvs k)
  | _, _ => Except.error ()

/-- Python `a or b` (keeps `a` when truthy, otherwise evaluates to `b`). -/
def pyOr (a b : Json) : Json := if truthy a then a else b

/-- The `raw_dni` expression of `on_message`:
`req.get("dni") or ((req.get("data") or {}) or {}).get("dni")
or ((req.get("payload") or {}) or {}).get("dni")
or ((req.get("payload") or {}) or {}).get("usuario")`,
with Python short-circuiting (explicit error propagation instead of `do`
notation) and with `.get` on a non-dict raising. -/
def extractRawDni (req : Json) : Except Unit Json :=
  match dictGet req "dni" with
  | Except.error e => Except.error e
  | Except.ok d1 =>
    if truthy d1 then Except.ok d1 else
    match dictGet req "data" with
    | Except.error e => Except.error e
    | Except.ok dataV =>
      match dictGet (pyOr dataV (Json.obj [])) "dni" with
      | Except.error e => Except.error e
      | Except.ok d2 =>
        if truthy d2 then Except.ok d2 else
        match dictGet req "payload" with
        | Except.error e => Except.error e
        | Except.ok payV =>
          match dictGet (pyOr payV (Json.obj [])) "dni" with
          | Except.error e => Except.error e
          | Except.ok d3 =>
            if truthy d3 then Except.ok d3 else
            match dictGet req "payload" with
            | Except.error e => Except.error e
            | Except.ok payV2 => dictGet (pyOr payV2 (Json.obj [])) "usuario"

/-- The whole guarded parse-and-extract block of `on_message`: a request body
is `none` when `json.loads` fails; any exception inside the block (decode
failure or `.get` on a non-dict) degrades to "no key" (`dni = None`). -/
def dniExtract (body : Option Json) : Option String :=
  match body with
  | none => none
  | some req =>
      match extractRawDni req with
      | Except.error _ => none
      | Except.ok raw => normalize_dni raw

/-- Lookup of a key in a JSON value when that value is an object, `none`
otherwise (helper for the spec-shaped extraction). -/
def mget (v : Json) (k : String) : Option Json :=
  match v with
  | Json.obj kvs => some (objLookup kvs k)
  | _ => none

/-- First truthy (non-empty) candidate in a list of optional values. -/
def firstTruthy : List (Option Json) → Option Json
  | [] => none
  | none :: rest => firstTruthy rest
  | some v :: rest => if truthy v then some v else firstTruthy rest

/-- Spec-shaped extraction, following the claim's words literally: try, in
order, the top-level key, the key under `data`, the key under `payload`, the
alternate name under `payload`, and return the first non-empty (truthy)
match. Used only to compare the claim's reading against the source. -/
def specFirstMatch (req : Json) : Option Json :=
  firstTruthy
    [mget req "dni",
     (mget req "data").bind (fun d => mget d "dni"),
     (mget req "payload").bind (fun p => mget p "dni"),
     (mget req "payload").bind (fun p => mget p "usuario")]

/-- Amended spec-shaped extraction: same fallback order, but if a probed
container (`data` or `payload`) is truthy and not an object, extraction
aborts to "no key" immediately (the source's `.get` raises there and the
surrounding `except` swallows everything). -/
def specAmendedExtract (req : Json) : Option Json :=
  match req with
  | Json.obj kvs =>
      let c1 := objLookup kvs "dni"
      if truthy c1 then some c1
      else
        let dv := objLookup kvs "data"
        if truthy dv && !isObjJson dv then none
        else
          let c2 := match dv with | Json.obj ks => objLookup ks "dni" | _ => Json.null
          if truthy c2 then some c2
          else
            let pv := objLookup kvs "payload"
            if truthy pv && !isObjJson pv then none
            else
              let c3 := match pv with | Json.obj ks => objLookup ks "dni" | _ => Json.null
              if truthy c3 then some c3
              else
                let c4 := match pv with | Json.obj ks => objLookup ks "usuario" | _ => Json.null
                if truthy c4 then some c4 else none
  | _ => none

/-! ### The responder (`on_message` and the consume loop) -/

/-- The response record `{ok, data, error}`; `data` is either a hit
(`{"valid": True, **person}`) or a miss (`{"valid": False, "dni": ...}`). -/
inductive RData where
  | hit (p : Person)
  | miss (dni : String)
  deriving DecidableEq, Repr

structure Resp where
  ok : Bool
  data : Option RData
  error : Option String
  deriving DecidableEq, Repr

/-- Externally observable broker actions of one handler invocation. -/
inductive Action where
  | publish (exchange : String) (routingKey : String) (corrId : Option String) (resp : Resp)
  | ack
  | logDrop
  deriving DecidableEq, Repr

/-- Classes of exceptions that can escape `on_message` into
`start_consuming`: pika `AMQPError`s (caught in `start`, which then stops),
and storage/psycopg errors from a failed reconnect (caught nowhere). -/
inductive ExcClass where
  | amqp
  | dbConn
  deriving DecidableEq, Repr

/-- Per-delivery environment: the message's AMQP properties and body, plus
the outcomes of the fallible external interactions during this delivery
(`publishOk`: the reply publish does not raise; `sever`: the storage
connection dies before this message is handled; `freshDb`: the connection
`connect_db` would produce, `none` when reconnecting raises). -/
structure MsgEnv where
  corrId : Option String
  replyTo : Option String
  body : Option Json
  publishOk : Bool
  sever : Bool
  freshDb : Option Db

/-- Result of one `on_message` invocation. -/
structure HandlerResult where
  actions : List Action
  newDb : Db
  exc : Option ExcClass
  resp : Resp

/-- Python `if not reply_to`: absent or empty reply destinations are treated
as missing. -/
def replyToOk : Option String → Bool
  | none => false
  | some q => q != ""

/-- The connection state as the handler sees it: `sever` models the storage
connection dying right before this message is handled. -/
def severApply (db : Db) (sever : Bool) : Db :=
  if sever then { db with healthy := false } else db

/-- The response body built by `on_message` (lines 292-300): look the key up
when one was extracted, `{valid: true, ...}` on a hit, `{valid: false, dni}`
on a miss or no key, `{ok: false, error}` when the lookup raised. -/
def respOf (db : Db) (body : Option Json) : Resp :=
  let dni := dniExtract body
  let lookupRes : Except Unit (Option Person) :=
    match dni with
    | some d => get_person db (Json.str d)
    | none => Except.ok none
  match lookupRes with
  | Except.ok (some p) => ⟨true, some (RData.hit p), none⟩
  | Except.ok none => ⟨true, some (RData.miss (dni.getD "")), none⟩
  | Except.error _ => ⟨false, none, some "db error"⟩

/-- The broker actions of the publish/ack section (lines 308-320): publish to
the default exchange at the reply destination when one is present (nothing
when the publish raises), log-and-drop when absent, and acknowledge exactly
once in `finally` on every path. -/
def actsOf (env : MsgEnv) (resp : Resp) : List Action :=
  if replyToOk env.replyTo then
    (if env.publishOk then [Action.publish "" (env.replyTo.getD "") env.corrId resp] else [])
      ++ [Action.ack]
  else [Action.logDrop, Action.ack]

/-- The exception escaping `on_message`, if any: a failed reply publish
re-raises (as an AMQP error) right after the `finally` ack, skipping the
probe; otherwise a failed probe with a failed reconnect raises a storage
error. -/
def excOf (db : Db) (env : MsgEnv) : Option ExcClass :=
  if replyToOk env.replyTo && !env.publishOk then some ExcClass.amqp
  else if db.healthy then none
  else
    match env.freshDb with
    | some _ => none
    | none => some ExcClass.dbConn

/-- The storage connection left for the next message: unchanged when the
probe succeeded or was skipped (publish failure), replaced by the fresh
connection when the probe failed and `connect_db` succeeded. -/
def newDbOf (db : Db) (env : MsgEnv) : Db :=
  if replyToOk env.replyTo && !env.publishOk then db
  else if db.healthy then db
  else
    match env.freshDb with
    | some db2 => db2
    | none => db

/-- One invocation of the `on_message` callback (lines 268-331): decode and
extract the key, run the lookup (errors become `{ok: false}`), publish the
reply when a destination is present, acknowledge exactly once in `finally`
(a publish failure re-raises after the ack), then probe the storage
connection and reconnect when the probe fails (the probe section is skipped
when the publish raised). -/
def on_message (db0 : Db) (env : MsgEnv) : HandlerResult :=
  let db := severApply db0 env.sever
  let resp := respOf db env.body
  ⟨actsOf env resp, newDbOf db env, excOf db env, resp⟩

/-- How the consume loop ends after a batch of deliveries. -/
inductive LoopEnd where
  | running
  | stoppedClean
  | crashed
  deriving DecidableEq, Repr

structure LoopResult where
  finalDb : Db
  actions : List Action
  outcome : LoopEnd
  deriving DecidableEq, Repr

/-- The `start_consuming` dispatch loop together with the handlers in
`ReniecRpcServer.start` (lines 336-342): an `AMQPError` escaping a handler
is caught and leads to `stop()`; a storage error escaping a handler (failed
reconnect) is caught nowhere and crashes the process; otherwise the loop
keeps consuming. -/
def consumeLoop (db : Db) : List MsgEnv → LoopResult
  | [] => ⟨db, [], LoopEnd.running⟩
  | m :: rest =>
      let r := on_message db m
      match r.exc with
      | none =>
          let rec' := consumeLoop r.newDb rest
          ⟨rec'.finalDb, r.actions ++ rec'.actions, rec'.outcome⟩
      | some ExcClass.amqp => ⟨r.newDb, r.actions, LoopEnd.stoppedClean⟩
      | some ExcClass.dbConn => ⟨r.newDb, r.actions, LoopEnd.crashed⟩

/-! ### Client-side correlation router (`client_load_test.py`, Worker) -/

/-- The `self.responses` dict: correlation token to raw reply body. -/
abbrev RTable := List (String × String)

/-- Dict lookup. -/
def lookupResp : RTable → String → Option String
  | [], _ => none
  | kv :: rest, cid => if cid = kv.1 then some kv.2 else lookupResp rest cid

/-- Dict key removal (`pop`). -/
def eraseResp (tbl : RTable) (cid : String) : RTable :=
  List.filter (fun kv => kv.1 != cid) tbl

/-- Dict assignment `self.responses[cid] = body` (overwrites any previous
binding of the key). -/
def insertResp (tbl : RTable) (cid body : String) : RTable :=
  (cid, body) :: eraseResp tbl cid

/-- The `on_response` consumer callback (lines 170-174): store the incoming
body under its correlation token, then acknowledge (the returned flag). -/
def on_response (tbl : RTable) (cid body : String) : RTable × Bool :=
  (insertResp tbl cid body, true)

/-- Deliver a batch of reply envelopes, each through `on_response`
(one `process_data_events` slice). -/
def depositAll (tbl : RTable) (batch : List (String × String)) : RTable :=
  batch.foldl (fun t kv => (on_response t kv.1 kv.2).1) tbl

/-- The wait loop of `rpc_call` (lines 193-200): repeatedly pump the
connection (delivering the next batch of replies), then poll the table for
this call's token, popping and returning its body when present; an exhausted
schedule is the stop signal (return the failure triple). The returned table
is the state after the pop. -/
def rpcWait (tbl : RTable) (cid : String) (sched : List (List (String × String))) :
    Option (String × RTable) :=
  match sched with
  | [] => none
  | batch :: rest =>
      let t2 := depositAll tbl batch
      match lookupResp t2 cid with
      | some b => some (b, eraseResp t2 cid)
      | none => rpcWait t2 cid rest

/-! ### Worker key selection (`pick_dni`, lines 94-106) -/

/-- One run's configuration (the environment variables read at module load). -/
structure LoadCfg where
  workers : Nat
  clientsPerWorker : Nat
  seedBase : Nat
  seedCount : Nat
  useFixedDnis : Bool
  deriving DecidableEq, Repr

/-- The fixed pool of seven known-good keys. -/
def FIXED_DNIS : List String :=
  ["12345678", "23456789", "34567890", "45678901", "56789012", "67890123", "78901234"]

/-- Zero-padded decimal formatting `f"{n:08d}"`. -/
def formatPad8 (n : Nat) : String :=
  let ds := (natReprDigits n).map dChar
  String.mk (List.replicate (8 - ds.length) '0' ++ ds)

/-- `pick_dni(wid, i)`: the optional fixed-pool interleave, otherwise the
deterministic slot `(wid * CLIENTS_PER_WORKER + i) % SEED_COUNT` in the
seeded range. -/
def pick_dni (cfg : LoadCfg) (wid i : Nat) : String :=
  if cfg.useFixedDnis && (wid + i) % 8 == 0 then
    FIXED_DNIS.getD ((wid + i) % FIXED_DNIS.length) ""
  else
    formatPad8 (cfg.seedBase + (wid * cfg.clientsPerWorker + i) % cfg.seedCount)

/-! ### Percentiles (`percentiles`, lines 84-92) -/

/-- Round-half-to-even (Python 3 `round`) of `m` hundredths. -/
def roundHundredths (m : Nat) : Nat :=
  if m % 100 < 50 then m / 100
  else if 50 < m % 100 then m / 100 + 1
  else if (m / 100) % 2 = 0 then m / 100 else m / 100 + 1

/-- Python 3 `int(round(p / 100.0 * (len(xs) - 1)))`, modelled as exact
arithmetic on `p * (len(xs) - 1)` hundredths followed by round-half-to-even. -/
def percIndex (p : Nat) (n : Nat) : Nat :=
  roundHundredths (p * (n - 1))

/-- `percentiles(nums, ps)`: `None` for every requested percentile when the
sample list is empty, otherwise index the sorted samples at each rounded
rank. -/
def percentiles (nums : List ℚ) (ps : List Nat) : List (Nat × Option ℚ) :=
  if nums.isEmpty then ps.map (fun p => (p, none))
  else
    let xs := List.insertionSort (fun a b => a ≤ b) nums
    ps.map (fun p => (p, xs.get? (percIndex p xs.length)))

/-! ### Value of a decimal digit string (used to prove `f"{n:08d}"` injective) -/

/-- Value of a big-endian decimal digit list. -/
def valFold (l : List Nat) : Nat :=
  l.foldl (fun a d => 10 * a + d) 0

/-- Value of a big-endian decimal digit character list. -/
def valFoldC (l : List Char) : Nat :=
  l.foldl (fun a c => 10 * a + (c.toNat - 48)) 0

/-! ### Concrete inputs used by counterexamples and witnesses -/

/-- An empty, healthy storage connection. -/
def dbEmpty : Db := ⟨[], true⟩

/-- A well-formed request delivery (no key in the body, reply queue `q`). -/
def envPub : MsgEnv := ⟨some "c", some "q", none, true, false, none⟩

/-- A delivery without a reply destination. -/
def envNoReply : MsgEnv := ⟨some "c", none, none, true, false, none⟩

/-- A delivery whose reply publish raises, followed by a benign delivery. -/
def c3msgs : List MsgEnv :=
  [⟨some "c1", some "q1", none, false, false, none⟩,
   ⟨some "c2", some "q2", none, true, false, none⟩]

/-- The consume-loop run on `c3msgs`. -/
def c3run : LoopResult := consumeLoop dbEmpty c3msgs

/-- A benign delivery with publish succeeding and a reconnect available. -/
def envBenign : MsgEnv := ⟨some "c", some "q", none, true, false, some dbEmpty⟩

/-- A delivery during which the storage connection is severed, with a fresh
connection available for the reconnect. -/
def envSevered : MsgEnv := ⟨some "c", some "q", none, true, true, some dbEmpty⟩

/-- A decodable body holding a truthy non-object under `data` and a valid key
under `payload`. -/
def jDataNum : Json :=
  Json.obj [("data", Json.num 5), ("payload", Json.obj [("dni", Json.str "11111111")])]

/-- A delivery whose body holds a syntactically invalid key. -/
def envBadKey : MsgEnv :=
  ⟨some "c", some "q", some (Json.obj [("dni", Json.str "123")]), true, false, none⟩

/-- A run configuration whose seeded range is smaller than the number of
worker slots (`WORKERS * CLIENTS_PER_WORKER > SEED_COUNT`). -/
def cfgClash : LoadCfg := ⟨2, 1, 0, 1, false⟩

/-- The default run configuration of `client_load_test.py`. -/
def cfgDefault : LoadCfg := ⟨20, 60, 10000000, 10000, false⟩

/-! ## Helper lemmas: the client response table -/

theorem lookupResp_eraseResp (t : RTable) (c c' : String) (h : c' ≠ c) :
    lookupResp (eraseResp t c) c' = lookupResp t c' := by
  induction t with
  | nil => rfl
  | cons kv rest ih =>
      rcases kv with ⟨k, v⟩
      by_cases hk : k = c
      · subst hk
        have hck : c' ≠ k := h
        simp only [eraseResp, List.filter_cons, bne_self_eq_false, if_neg] at *
        simpa [lookupResp, hck] using ih
      · have hkc : (k != c) = true := by simp [hk]
        simp only [eraseResp, List.filter_cons, hkc, if_pos] at *
        by_cases hck : c' = k
        · subst hck; simp [lookupResp]
        · simpa [lookupResp, hck] using ih

theorem lookupResp_insertResp (t : RTable) (c b c' : String) :
    lookupResp (insertResp t c b) c' = if c' = c then some b else lookupResp t c' := by
  by_cases h : c' = c
  · subst h; simp [insertResp, lookupResp]
  · simp only [insertResp, lookupResp, if_neg h]
    exact lookupResp_eraseResp t c c' h

theorem lookup_depositAll (batch : List (String × String)) :
    ∀ (t : RTable) (cid b : String), lookupResp (depositAll t batch) cid = some b →
      (cid, b) ∈ batch ∨ lookupResp t cid = some b := by
  induction batch with
  | nil => intro t cid b h; exact Or.inr h
  | cons kv rest ih =>
      intro t cid b h
      rcases kv with ⟨c0, b0⟩
      have h2 := ih (insertResp t c0 b0) cid b h
      rcases h2 with hmem | hlook
      · exact Or.inl (List.mem_cons_of_mem _ hmem)
      · rw [lookupResp_insertResp] at hlook
        by_cases hc : cid = c0
        · subst hc
          rw [if_pos rfl] at hlook
          injection hlook with hb
          exact Or.inl (by rw [← hb]; exact List.mem_cons_self _ _)
        · rw [if_neg hc] at hlook
          exact Or.inr hlook

/-! ## Helper lemmas: key normalization and extraction -/

theorem filter_all_isDigit (l : List Char) :
    (l.filter Char.isDigit).all Char.isDigit = true := by
  rw [List.all_eq_true]
  intro c hc
  exact (List.mem_filter.mp hc).2

theorem normalize_dni_eq (v : Json) (h : v ≠ Json.null) :
    normalize_dni v =
      (if (stripDigits v).length = 8 then some (stripDigits v) else none) := by
  cases v with
  | null => exact absurd rfl h
  | bool b => simp [normalize_dni, stripDigits, String.length, filter_all_isDigit]
  | num n => simp [normalize_dni, stripDigits, String.length, filter_all_isDigit]
  | str s => simp [normalize_dni, stripDigits, String.length, filter_all_isDigit]
  | arr xs => simp [normalize_dni, stripDigits, String.length, filter_all_isDigit]
  | obj kvs => simp [normalize_dni, stripDigits, String.length, filter_all_isDigit]

theorem normalize_of_falsy (v : Json) (h : truthy v = false) :
    normalize_dni v = none := by
  cases v with
  | null => rfl
  | bool b =>
      cases b with
      | true => exact absurd h (by decide)
      | false =>
          simp only [normalize_dni, pyStr, pyRepr]
          decide
  | num n =>
      have hn : n = 0 := by simpa [truthy] using h
      subst hn
      simp only [normalize_dni, pyStr, pyRepr]
      decide
  | str s =>
      have hs : s = "" := by simpa [truthy] using h
      subst hs; decide
  | arr xs =>
      have hx : xs = [] := by simpa [truthy, List.isEmpty_iff] using h
      subst hx
      simp only [normalize_dni, pyStr, pyRepr, pyReprList]
      decide
  | obj kvs =>
      have hk : kvs = [] := by simpa [truthy, List.isEmpty_iff] using h
      subst hk
      simp only [normalize_dni, pyStr, pyRepr, pyReprPairs]
      decide

theorem dictGet_obj (kvs : List (String × Json)) (k : String) :
    dictGet (Json.obj kvs) k = Except.ok (objLookup kvs k) := rfl

theorem dictGet_pyOr_obj (dv : Json) (k : String) :
    dictGet (pyOr dv (Json.obj [])) k =
      (if truthy dv && !isObjJson dv then Except.error ()
       else Except.ok (match dv with | Json.obj ks => objLookup ks k | _ => Json.null)) := by
  cases dv with
  | null => rfl
  | bool b => cases b <;> rfl
  | num n =>
      by_cases hn : n = 0
      · subst hn; rfl
      · have : (n != 0) = true := by simp [hn]
        simp [pyOr, truthy, isObjJson, this, dictGet]
  | str s =>
      by_cases hs : s = ""
      · subst hs; rfl
      · have : (s != "") = true := by simp [hs]
        simp [pyOr, truthy, isObjJson, this, dictGet]
  | arr xs =>
      cases xs with
      | nil => rfl
      | cons x rest => simp [pyOr, truthy, isObjJson, dictGet, List.isEmpty]
  | obj kvs =>
      cases kvs with
      | nil => rfl
      | cons kv rest => simp [pyOr, truthy, isObjJson, dictGet, List.isEmpty]

/-! ## Helper lemmas: decimal digits and zero padding -/

theorem valFold_append_singleton (l : List Nat) (d : Nat) :
    valFold (l ++ [d]) = 10 * valFold l + d := by
  simp [valFold, List.foldl_append]

theorem natDigitsRevAux_val :
    ∀ (fuel n : Nat), n < 10 ^ fuel → valFold ((natDigitsRevAux fuel n).reverse) = n := by
  intro fuel
  induction fuel with
  | zero =>
      intro n h
      have hn : n = 0 := by simpa using h
      subst hn; rfl
  | succ f ih =>
      intro n h
      by_cases h10 : n < 10
      · simp [natDigitsRevAux, h10, valFold]
      · have hdiv : n / 10 < 10 ^ f := by
          refine (Nat.div_lt_iff_lt_mul (by norm_num)).mpr ?_
          calc n < 10 ^ (f + 1) := h
            _ = 10 ^ f * 10 := pow_succ 10 f
        simp only [natDigitsRevAux, if_neg h10, List.reverse_cons]
        rw [valFold_append_singleton, ih _ hdiv]
        omega

theorem natDigitsRevAux_lt_ten :
    ∀ (fuel n d : Nat), d ∈ natDigitsRevAux fuel n → d < 10 := by
  intro fuel
  induction fuel with
  | zero => intro n d h; simp [natDigitsRevAux] at h
  | succ f ih =>
      intro n d h
      by_cases h10 : n < 10
      · simp [natDigitsRevAux, h10] at h; omega
      · simp only [natDigitsRevAux, if_neg h10, List.mem_cons] at h
        rcases h with h | h
        · omega
        · exact ih _ _ h

theorem dChar_toNat : ∀ d, d < 10 → (dChar d).toNat = 48 + d := by decide

theorem foldlC_map_dChar :
    ∀ (ds : List Nat) (a : Nat), (∀ d ∈ ds, d < 10) →
      List.foldl (fun a c => 10 * a + (c.toNat - 48)) a (ds.map dChar) =
        List.foldl (fun a d => 10 * a + d) a ds := by
  intro ds
  induction ds with
  | nil => intro a _; rfl
  | cons d rest ih =>
      intro a h
      have hd : (dChar d).toNat - 48 = d := by
        rw [dChar_toNat d (h d (List.mem_cons_self _ _))]; omega
      simp only [List.map_cons, List.foldl_cons, hd]
      exact ih _ (fun x hx => h x (List.mem_cons_of_mem _ hx))

theorem valFoldC_replicate_zero :
    ∀ (k : Nat) (l : List Char), valFoldC (List.replicate k '0' ++ l) = valFoldC l := by
  intro k
  induction k with
  | zero => intro l; rfl
  | succ kk ih =>
      intro l
      simp only [List.replicate_succ, List.cons_append, valFoldC, List.foldl_cons]
      have h0 : 10 * 0 + ('0'.toNat - 48) = 0 := by decide
      rw [h0]
      exact ih l

theorem valFoldC_formatPad8 (x : Nat) : valFoldC (formatPad8 x).data = x := by
  have hb : ∀ d ∈ natReprDigits x, d < 10 := by
    intro d hd
    exact natDigitsRevAux_lt_ten _ _ _ (List.mem_reverse.mp hd)
  show valFoldC
      (List.replicate (8 - ((natReprDigits x).map dChar).length) '0' ++ (natReprDigits x).map dChar)
    = x
  rw [valFoldC_replicate_zero]
  show List.foldl (fun a c => 10 * a + (c.toNat - 48)) 0 ((natReprDigits x).map dChar) = x
  rw [foldlC_map_dChar _ 0 hb]
  have hlt : x < 10 ^ (x + 1) :=
    lt_of_lt_of_le (Nat.lt_pow_self (by norm_num) x)
      (Nat.pow_le_pow_right (by norm_num) (Nat.le_succ x))
  exact natDigitsRevAux_val (x + 1) x hlt

theorem formatPad8_inj {m n : Nat} (h : formatPad8 m = formatPad8 n) : m = n := by
  calc m = valFoldC (formatPad8 m).data := (valFoldC_formatPad8 m).symm
    _ = valFoldC (formatPad8 n).data := by rw [h]
    _ = n := valFoldC_formatPad8 n

/-! ## Helper lemmas: percentile ranks -/

theorem roundHundredths_mono {a b : Nat} (h : a ≤ b) :
    roundHundredths a ≤ roundHundredths b := by
  unfold roundHundredths
  split_ifs <;> omega

theorem roundHundredths_le_of_le {m k : Nat} (h : m ≤ 100 * k) :
    roundHundredths m ≤ k := by
  unfold roundHundredths
  split_ifs <;> omega

theorem sorted_get_le (l : List ℚ) (hs : List.Sorted (fun a b : ℚ => a ≤ b) l)
    (i j : Nat) (hij : i ≤ j) (hj : j < l.length) :
    l.get ⟨i, lt_of_le_of_lt hij hj⟩ ≤ l.get ⟨j, hj⟩ := by
  exact hs.rel_get_of_le (by exact hij)

/-! ## Helper lemmas: the rpc wait loop -/

theorem rpcWait_mem_join (cid b : String) :
    ∀ (sched : List (List (String × String))) (t0 t' : RTable),
      lookupResp t0 cid = none → rpcWait t0 cid sched = some (b, t') →
        (cid, b) ∈ sched.join := by
  intro sched
  induction sched with
  | nil =>
      intro t0 t' _ hw
      simp [rpcWait] at hw
  | cons batch rest ih =>
      intro t0 t' hfresh hwait
      rw [rpcWait] at hwait
      cases hlk : lookupResp (depositAll t0 batch) cid with
      | some b0 =>
          rw [hlk] at hwait
          injection hwait with hpair
          have hb : b0 = b := congrArg Prod.fst hpair
          subst hb
          rcases lookup_depositAll batch t0 cid b0 hlk with hm | hl
          · simp only [List.join_cons]
            exact List.mem_append_left _ hm
          · rw [hfresh] at hl
            cases hl
      | none =>
          rw [hlk] at hwait
          simp only [List.join_cons]
          exact List.mem_append_right _ (ih _ _ hlk hwait)

/-! ## The claims -/

/-- C1: Round-trip correlation with no cross-talk. Responder side: every
reply the handler publishes carries exactly the correlation token of the
request being handled (the token is echoed unchanged). Client side: whenever
the wait loop of `rpc_call` returns a response for a fresh token, that
response body was delivered to the router under exactly that token, for
every interleaving (delivery schedule) of concurrent outstanding calls on
one router. -/
theorem c1_round_trip_correlation :
    (∀ (db : Db) (env : MsgEnv) (ex rk : String) (c : Option String) (r : Resp),
        Action.publish ex rk c r ∈ (on_message db env).actions → c = env.corrId)
    ∧ (∀ (t0 : RTable) (cid : String) (sched : List (List (String × String)))
        (b : String) (t' : RTable),
        lookupResp t0 cid = none → rpcWait t0 cid sched = some (b, t') →
          (cid, b) ∈ sched.join) := by
  constructor
  · intro db env ex rk c r hmem
    simp only [on_message, actsOf] at hmem
    by_cases hr : replyToOk env.replyTo
    · rw [if_pos hr] at hmem
      by_cases hp : env.publishOk
      · rw [if_pos hp] at hmem
        rw [List.singleton_append] at hmem
        rcases List.mem_cons.mp hmem with heq | hmem2
        · injection heq with h1 h2 h3 h4
        · exact absurd (List.mem_singleton.mp hmem2) (by simp)
      · rw [if_neg hp] at hmem
        simp at hmem
    · rw [if_neg hr] at hmem
      simp at hmem
  · intro t0 cid sched b t' h1 h2
    exact rpcWait_mem_join cid b sched t0 t' h1 h2

/-- Witness for C1: a concrete handled request whose published reply echoes
the token `c`, and a concrete two-batch schedule in which the wait loop's
result for token `t1` is the body delivered under `t1`. -/
theorem c1_round_trip_correlation_witness :
    (some "c" : Option String) = envPub.corrId ∧
      ("t1", "b1") ∈ ([[("x", "bx")], [("t1", "b1")]] : List (List (String × String))).join := by
  constructor
  · exact c1_round_trip_correlation.1 dbEmpty envPub "" "q" (some "c")
      ⟨true, some (RData.miss ""), none⟩ (by decide)
  · exact c1_round_trip_correlation.2 [] "t1" [[("x", "bx")], [("t1", "b1")]] "b1"
      [("x", "bx")] (by decide) (by decide)

/-- C2: the handler acknowledges the original delivery exactly once on every
path (also when the reply publish raises), and when no reply destination is
present it publishes nothing anywhere (it only logs the drop) and still
acknowledges exactly once. -/
theorem c2_ack_exactly_once (db : Db) (env : MsgEnv) :
    (on_message db env).actions.count Action.ack = 1 ∧
      (env.replyTo = none → (on_message db env).actions = [Action.logDrop, Action.ack]) := by
  constructor
  · simp only [on_message, actsOf]
    by_cases hr : replyToOk env.replyTo
    · rw [if_pos hr]
      by_cases hp : env.publishOk
      · rw [if_pos hp]
        simp [List.count_cons, List.count_nil]
      · rw [if_neg hp]
        simp [List.count_cons, List.count_nil]
    · rw [if_neg hr]
      simp [List.count_cons, List.count_nil]
  · intro h
    simp [on_message, actsOf, replyToOk, h]

/-- Witness for C2: concrete deliveries with and without a reply
destination. -/
theorem c2_ack_exactly_once_witness :
    (on_message dbEmpty envNoReply).actions.count Action.ack = 1 ∧
      (on_message dbEmpty envNoReply).actions = [Action.logDrop, Action.ack] := by
  exact ⟨(c2_ack_exactly_once dbEmpty envNoReply).1,
    (c2_ack_exactly_once dbEmpty envNoReply).2 rfl⟩

/-- C3, counterexample: per-message failures are NOT all contained. A reply
publish that raises escapes `on_message` (after the ack) as an AMQP error,
which `start` catches by stopping: the consume loop terminates and the
second, benign delivery is never handled (the whole run's only action is the
first message's ack). -/
theorem c3_containment_counterexample :
    c3run.outcome = LoopEnd.stoppedClean ∧ c3run.actions = [Action.ack] := by
  decide

/-- C3, amended: decode failures and lookup failures are contained within the
message's handling (no exception escapes the handler, for any body and any
storage state, provided the reply publish succeeds and a reconnect, when one
is needed, succeeds), and a consume loop over such deliveries keeps running;
but a failed reply publish or a failed storage reconnect escapes the handler
and terminates the loop. -/
theorem c3_containment_amended :
    (∀ (db : Db) (env : MsgEnv) (db2 : Db), env.publishOk = true →
        env.freshDb = some db2 → (on_message db env).exc = none)
    ∧ (∀ (db : Db) (msgs : List MsgEnv),
        (∀ m ∈ msgs, m.publishOk = true ∧ m.freshDb ≠ none) →
        (consumeLoop db msgs).outcome = LoopEnd.running) := by
  have hexc : ∀ (db : Db) (env : MsgEnv) (db2 : Db), env.publishOk = true →
      env.freshDb = some db2 → (on_message db env).exc = none := by
    intro db env db2 hp hf
    by_cases hh : (severApply db env.sever).healthy
    · simp [on_message, excOf, hp, hh]
    · simp [on_message, excOf, hp, hh, hf]
  constructor
  · exact hexc
  · intro db msgs
    induction msgs generalizing db with
    | nil => intro _; rfl
    | cons m rest ih =>
        intro h
        have hm := h m (List.mem_cons_self _ _)
        rcases Option.ne_none_iff_exists.mp hm.2 with ⟨d2, hd2⟩
        have hexc0 : (on_message db m).exc = none := hexc db m d2 hm.1 hd2.symm
        simp only [consumeLoop, hexc0]
        exact ih _ (fun x hx => h x (List.mem_cons_of_mem _ hx))

/-- Witness for C3's amended claim: a delivery with an undecodable body and a
severed storage connection (decode and lookup failure at once), with the
publish and the reconnect succeeding: the loop is still running afterwards. -/
theorem c3_containment_amended_witness :
    (on_message dbEmpty envSevered).exc = none ∧
      (consumeLoop dbEmpty [envSevered]).outcome = LoopEnd.running := by
  constructor
  · exact c3_containment_amended.1 dbEmpty envSevered dbEmpty rfl rfl
  · refine c3_containment_amended.2 dbEmpty [envSevered] ?_
    intro m hm
    rw [List.mem_singleton] at hm
    subst hm
    exact ⟨rfl, by simp [envSevered]⟩

/-- C4, counterexample: on an incoming reply whose correlation token has no
outstanding call (empty table), the router does acknowledge, but it does NOT
drop the payload: the body is retained in the responses table under the
stale token. -/
theorem c4_stale_reply_counterexample :
    (on_response [] "stale" "b1").2 = true ∧
      lookupResp (on_response [] "stale" "b1").1 "stale" = some "b1" ∧
      (on_response [] "stale" "b1").1 ≠ [] := by
  decide

/-- C4, amended: for every incoming reply envelope — matching a pending call
or not — the router acknowledges the delivery and stores the payload in the
responses table under its correlation token (a stale payload is retained, not
dropped; it is returned only to a call that polls that same token), leaving
every other token's entry unchanged. -/
theorem c4_stale_reply_amended (tbl : RTable) (cid b : String) :
    (on_response tbl cid b).2 = true ∧
      lookupResp (on_response tbl cid b).1 cid = some b ∧
      (∀ c, c ≠ cid → lookupResp (on_response tbl cid b).1 c = lookupResp tbl c) := by
  refine ⟨rfl, ?_, ?_⟩
  · show lookupResp (insertResp tbl cid b) cid = some b
    rw [lookupResp_insertResp]
    simp
  · intro c hc
    show lookupResp (insertResp tbl cid b) c = lookupResp tbl c
    rw [lookupResp_insertResp, if_neg hc]

/-- Witness for C4's amended claim at a concrete table and tokens. -/
theorem c4_stale_reply_amended_witness :
    (on_response [("t0", "b0")] "stale" "b1").2 = true ∧
      lookupResp (on_response [("t0", "b0")] "stale" "b1").1 "stale" = some "b1" ∧
      lookupResp (on_response [("t0", "b0")] "stale" "b1").1 "t0" =
        lookupResp [("t0", "b0")] "t0" := by
  exact ⟨(c4_stale_reply_amended [("t0", "b0")] "stale" "b1").1,
    (c4_stale_reply_amended [("t0", "b0")] "stale" "b1").2.1,
    (c4_stale_reply_amended [("t0", "b0")] "stale" "b1").2.2 "t0" (by decide)⟩

/-- C5, counterexample: the body
`{"data": 5, "payload": {"dni": "11111111"}}` decodes fine and matches the
documented `payload` shape, so the claimed first-non-empty-match order yields
the key `"11111111"`; but the source aborts on `data` being a truthy
non-dict (`(5).get` raises, the surrounding `except` swallows it) and treats
the request as having no key. -/
theorem c5_extraction_counterexample :
    dniExtract (some jDataNum) = none ∧
      (specFirstMatch jDataNum).bind normalize_dni = some "11111111" := by
  decide

/-- C5, amended: extraction follows the documented order — top-level key,
key under `data`, key under `payload`, alternate name under `payload`, first
truthy (non-empty) match wins, where null/false/0/empty values count as
empty — except that when a probed container (`data` or `payload`) is truthy
but not an object, extraction aborts soft to "no key" immediately; any
undecodable body or non-object body also fails soft to "no key". -/
theorem c5_extraction_amended (body : Option Json) :
    dniExtract body = (body.bind specAmendedExtract).bind normalize_dni := by
  cases body with
  | none => rfl
  | some req =>
      cases req with
      | null => rfl
      | bool b => cases b <;> rfl
      | num n => rfl
      | str s => rfl
      | arr xs => rfl
      | obj kvs =>
          by_cases h1 : truthy (objLookup kvs "dni") = true
          · simp [dniExtract, extractRawDni, dictGet_obj, specAmendedExtract, h1]
          · by_cases h2 : truthy (objLookup kvs "data") = true ∧
                isObjJson (objLookup kvs "data") = false
            · simp [dniExtract, extractRawDni, dictGet_obj, specAmendedExtract, h1, h2,
                dictGet_pyOr_obj]
            · by_cases h3 : truthy (match objLookup kvs "data" with
                | Json.obj ks => objLookup ks "dni"
                | _ => Json.null) = true
              · simp [dniExtract, extractRawDni, dictGet_obj, specAmendedExtract, h1, h2, h3,
                  dictGet_pyOr_obj]
              · by_cases h4 : truthy (objLookup kvs "payload") = true ∧
                    isObjJson (objLookup kvs "payload") = false
                · simp [dniExtract, extractRawDni, dictGet_obj, specAmendedExtract, h1, h2,
                    h3, h4, dictGet_pyOr_obj]
                · by_cases h5 : truthy (match objLookup kvs "payload" with
                    | Json.obj ks => objLookup ks "dni"
                    | _ => Json.null) = true
                  · simp [dniExtract, extractRawDni, dictGet_obj, specAmendedExtract, h1, h2,
                      h3, h4, h5, dictGet_pyOr_obj]
                  · by_cases h6 : truthy (match objLookup kvs "payload" with
                      | Json.obj ks => objLookup ks "usuario"
                      | _ => Json.null) = true
                    · simp [dniExtract, extractRawDni, dictGet_obj, specAmendedExtract, h1,
                        h2, h3, h4, h5, h6, dictGet_pyOr_obj]
                    · have h6f : truthy (match objLookup kvs "payload" with
                        | Json.obj ks => objLookup ks "usuario"
                        | _ => Json.null) = false := by
                        revert h6
                        cases truthy (match objLookup kvs "payload" with
                          | Json.obj ks => objLookup ks "usuario"
                          | _ => Json.null) <;> simp
                      simp [dniExtract, extractRawDni, dictGet_obj, specAmendedExtract, h1,
                        h2, h3, h4, h5, h6, dictGet_pyOr_obj, normalize_of_falsy _ h6f]

/-- C6: normalization strips all non-digit characters from the stringified
input (string, number, or absent) and accepts exactly when 8 digits remain;
and every request whose key is rejected by this rule (no key survives
extraction plus normalization) receives the non-throwing response
`{ok: true, data: {valid: false, dni: ""}}`, where `data.dni` echoes the
normalized key — empty on rejection, as the source substitutes `""` for the
absent normalized value. -/
theorem c6_normalization_and_invalid_key (v : Json) (d : String) (db : Db) (env : MsgEnv) :
    (normalize_dni v = some d ↔ d = stripDigits v ∧ (stripDigits v).length = 8)
    ∧ (dniExtract env.body = none →
        (on_message db env).resp = ⟨true, some (RData.miss ""), none⟩) := by
  constructor
  · by_cases hv : v = Json.null
    · subst hv
      have hps : pyStr Json.null = "None" := by simp [pyStr, pyRepr]
      have hnull : stripDigits Json.null = "" := by
        simp only [stripDigits, hps]
        decide
      constructor
      · intro h; cases h
      · rintro ⟨rfl, h8⟩
        rw [hnull] at h8
        exact absurd h8 (by decide)
    · rw [normalize_dni_eq v hv]
      constructor
      · intro h
        by_cases h8 : (stripDigits v).length = 8
        · rw [if_pos h8] at h
          injection h with hd
          exact ⟨hd.symm, h8⟩
        · rw [if_neg h8] at h
          cases h
      · rintro ⟨rfl, h8⟩
        rw [if_pos h8]
  · intro h
    simp [on_message, respOf, h]

/-- Witness for C6: the key `"12a345678b"` normalizes to its 8 digits, and a
concrete request with the invalid key `"123"` receives
`{ok: true, data: {valid: false, dni: ""}}`. -/
theorem c6_normalization_and_invalid_key_witness :
    normalize_dni (Json.str "12a345678b") = some "12345678" ∧
      (on_message dbEmpty envBadKey).resp = ⟨true, some (RData.miss ""), none⟩ := by
  constructor
  · exact (c6_normalization_and_invalid_key (Json.str "12a345678b") "12345678" dbEmpty
      envBadKey).1.mpr ⟨by decide, by decide⟩
  · exact (c6_normalization_and_invalid_key (Json.str "12a345678b") "12345678" dbEmpty
      envBadKey).2 (by decide)

/-! ## Helper lemmas: the built response -/

theorem respOf_wellformed (db : Db) (body : Option Json) :
    ((respOf db body).ok = true ∧ ((respOf db body).data).isSome = true
        ∧ (respOf db body).error = none)
    ∨ ((respOf db body).ok = false ∧ (respOf db body).data = none
        ∧ ((respOf db body).error).isSome = true) := by
  unfold respOf
  cases hd : dniExtract body with
  | none => simp
  | some d =>
      unfold get_person
      cases hn : normalize_dni (Json.str d) with
      | none => simp [hn]
      | some d2 =>
          by_cases hh : db.healthy
          · cases hl : db.table.lookup d2 <;> simp [hn, hh, hl]
          · simp [hn, hh]

theorem respOf_ok_of_healthy (db : Db) (body : Option Json) (hh : db.healthy = true) :
    (respOf db body).ok = true := by
  unfold respOf
  cases hd : dniExtract body with
  | none => simp
  | some d =>
      unfold get_person
      cases hn : normalize_dni (Json.str d) with
      | none => simp [hn]
      | some d2 => cases hl : db.table.lookup d2 <;> simp [hn, hh, hl]

/-- C7: storage self-healing. (a) When the storage connection is dead at
probe time (severed during this message, or already dead) and the reply
publish succeeded, the handler discards it and installs the fresh connection
produced by `connect_db` before the next message is processed. (b) Every
message's response is valid: either a success (`ok: true` with a data
record) or a clean failure (`ok: false` with an error and null data) —
in particular the request during which the connection was severed still gets
a valid response. (c) On a healthy connection the response is always the
`ok: true` form, so after a successful reconnect the very next request gets
a success-form response. -/
theorem c7_storage_self_healing (db : Db) (env : MsgEnv) (db2 : Db) :
    (env.publishOk = true → (env.sever = true ∨ db.healthy = false) →
        env.freshDb = some db2 → (on_message db env).newDb = db2)
    ∧ (((on_message db env).resp.ok = true ∧ ((on_message db env).resp.data).isSome = true
          ∧ (on_message db env).resp.error = none)
        ∨ ((on_message db env).resp.ok = false ∧ (on_message db env).resp.data = none
          ∧ ((on_message db env).resp.error).isSome = true))
    ∧ (db.healthy = true → env.sever = false → (on_message db env).resp.ok = true) := by
  refine ⟨?_, ?_, ?_⟩
  · intro hp hdead hf
    have hh : (severApply db env.sever).healthy = false := by
      rcases hdead with hs | hu
      · simp [severApply, hs]
      · cases hsv : env.sever <;> simp [severApply, hu]
    simp [on_message, newDbOf, hp, hh, hf]
  · exact respOf_wellformed (severApply db env.sever) env.body
  · intro hh hs
    have : (severApply db env.sever).healthy = true := by simp [severApply, hs, hh]
    exact respOf_ok_of_healthy _ env.body this

/-- Witness for C7: a dead connection is replaced by the fresh one during a
severed delivery, and a healthy delivery right after gets an `ok: true`
response. -/
theorem c7_storage_self_healing_witness :
    (on_message ⟨[], false⟩ envSevered).newDb = dbEmpty ∧
      (on_message dbEmpty envBenign).resp.ok = true := by
  constructor
  · exact (c7_storage_self_healing ⟨[], false⟩ envSevered dbEmpty).1 rfl (Or.inl rfl) rfl
  · exact (c7_storage_self_healing dbEmpty envBenign dbEmpty).2.2 rfl rfl

/-- C8, counterexample: `pick_dni` is deterministic, but key selection is not
collision-free for every run: in a run configured with two workers, one
client per worker and a seeded range of one key (fixed pool disabled),
workers 0 and 1 select the same key. -/
theorem c8_key_selection_counterexample :
    cfgClash.useFixedDnis = false ∧ (0 : Nat) ≠ 1 ∧ 0 < cfgClash.workers ∧
      1 < cfgClash.workers ∧ 0 < cfgClash.clientsPerWorker ∧
      pick_dni cfgClash 0 0 = pick_dni cfgClash 1 0 := by
  decide

/-- C8, amended: the key choice is a deterministic (pure) function of the
worker and iteration indices, and whenever the run's worker slots fit in the
seeded range (`WORKERS * CLIENTS_PER_WORKER ≤ SEED_COUNT`, true of the
default configuration) and the fixed pool is disabled, distinct workers
never select a common key. -/
theorem c8_key_selection_amended (cfg : LoadCfg) (w1 w2 i j : Nat)
    (hfix : cfg.useFixedDnis = false) (h1 : w1 < cfg.workers) (h2 : w2 < cfg.workers)
    (hne : w1 ≠ w2) (hi : i < cfg.clientsPerWorker) (hj : j < cfg.clientsPerWorker)
    (hcap : cfg.workers * cfg.clientsPerWorker ≤ cfg.seedCount) :
    pick_dni cfg w1 i ≠ pick_dni cfg w2 j := by
  have hslot : ∀ w k, w < cfg.workers → k < cfg.clientsPerWorker →
      w * cfg.clientsPerWorker + k < cfg.seedCount := by
    intro w k hw hk
    calc w * cfg.clientsPerWorker + k
        < w * cfg.clientsPerWorker + cfg.clientsPerWorker := Nat.add_lt_add_left hk _
      _ = (w + 1) * cfg.clientsPerWorker := (Nat.succ_mul w _).symm
      _ ≤ cfg.workers * cfg.clientsPerWorker :=
          Nat.mul_le_mul_right _ (Nat.succ_le_of_lt hw)
      _ ≤ cfg.seedCount := hcap
  have e1 : (w1 * cfg.clientsPerWorker + i) % cfg.seedCount =
      w1 * cfg.clientsPerWorker + i := Nat.mod_eq_of_lt (hslot w1 i h1 hi)
  have e2 : (w2 * cfg.clientsPerWorker + j) % cfg.seedCount =
      w2 * cfg.clientsPerWorker + j := Nat.mod_eq_of_lt (hslot w2 j h2 hj)
  have hboth : ∀ a b p q, a < b → p < cfg.clientsPerWorker →
      a * cfg.clientsPerWorker + p < b * cfg.clientsPerWorker + q := by
    intro a b p q hab hp
    calc a * cfg.clientsPerWorker + p
        < a * cfg.clientsPerWorker + cfg.clientsPerWorker := Nat.add_lt_add_left hp _
      _ = (a + 1) * cfg.clientsPerWorker := (Nat.succ_mul a _).symm
      _ ≤ b * cfg.clientsPerWorker := Nat.mul_le_mul_right _ (Nat.succ_le_of_lt hab)
      _ ≤ b * cfg.clientsPerWorker + q := Nat.le_add_right _ _
  have hneq : w1 * cfg.clientsPerWorker + i ≠ w2 * cfg.clientsPerWorker + j := by
    rcases Nat.lt_or_ge w1 w2 with hlt | hge
    · exact Nat.ne_of_lt (hboth w1 w2 i j hlt hi)
    · have hlt : w2 < w1 := Nat.lt_of_le_of_ne hge (Ne.symm hne)
      exact (Nat.ne_of_lt (hboth w2 w1 j i hlt hj)).symm
  simp only [pick_dni, hfix, Bool.false_and, Bool.false_eq_true, if_false]
  rw [e1, e2]
  intro he
  exact hneq (by have h0 := formatPad8_inj he; omega)

/-- Witness for C8's amended claim: under the default configuration
(20 workers, 60 clients each, a 10000-key range), workers 0 and 1 pick
different keys. -/
theorem c8_key_selection_amended_witness :
    pick_dni cfgDefault 0 0 ≠ pick_dni cfgDefault 1 0 :=
  c8_key_selection_amended cfgDefault 0 1 0 0 rfl (by decide) (by decide) (by decide)
    (by decide) (by decide) (by decide)

/-- C9: for every non-empty sample list, the percentile computation produces
values for 50, 95 and 99 with p50 ≤ p95 ≤ p99: the rounded ranks are
monotone in the requested percentile and index one sorted list. -/
theorem c9_percentiles_monotonic (nums : List ℚ) (h : nums ≠ []) :
    ∃ a b c, percentiles nums [50, 95, 99] = [(50, some a), (95, some b), (99, some c)]
      ∧ a ≤ b ∧ b ≤ c := by
  have hne : nums.isEmpty = false := by
    cases nums with
    | nil => exact absurd rfl h
    | cons x xs => rfl
  have hlen : (List.insertionSort (fun a b : ℚ => a ≤ b) nums).length = nums.length :=
    (List.perm_insertionSort _ nums).length_eq
  have hpos : 0 < (List.insertionSort (fun a b : ℚ => a ≤ b) nums).length := by
    rw [hlen]
    exact List.length_pos.mpr h
  have hsorted : (List.insertionSort (fun a b : ℚ => a ≤ b) nums).Sorted
      (fun a b : ℚ => a ≤ b) := List.sorted_insertionSort _ nums
  have hidx : ∀ p, p ≤ 100 →
      percIndex p (List.insertionSort (fun a b : ℚ => a ≤ b) nums).length <
        (List.insertionSort (fun a b : ℚ => a ≤ b) nums).length := by
    intro p hp
    have hle : percIndex p (List.insertionSort (fun a b : ℚ => a ≤ b) nums).length ≤
        (List.insertionSort (fun a b : ℚ => a ≤ b) nums).length - 1 := by
      refine roundHundredths_le_of_le ?_
      have := hpos
      calc p * ((List.insertionSort (fun a b : ℚ => a ≤ b) nums).length - 1)
          ≤ 100 * ((List.insertionSort (fun a b : ℚ => a ≤ b) nums).length - 1) :=
            Nat.mul_le_mul_right _ hp
        _ = 100 * ((List.insertionSort (fun a b : ℚ => a ≤ b) nums).length - 1) := rfl
    omega
  have h50 := hidx 50 (by omega)
  have h95 := hidx 95 (by omega)
  have h99 := hidx 99 (by omega)
  have m1 : percIndex 50 (List.insertionSort (fun a b : ℚ => a ≤ b) nums).length ≤
      percIndex 95 (List.insertionSort (fun a b : ℚ => a ≤ b) nums).length :=
    roundHundredths_mono (Nat.mul_le_mul_right _ (by omega))
  have m2 : percIndex 95 (List.insertionSort (fun a b : ℚ => a ≤ b) nums).length ≤
      percIndex 99 (List.insertionSort (fun a b : ℚ => a ≤ b) nums).length :=
    roundHundredths_mono (Nat.mul_le_mul_right _ (by omega))
  refine ⟨(List.insertionSort (fun a b : ℚ => a ≤ b) nums).get ⟨_, h50⟩,
    (List.insertionSort (fun a b : ℚ => a ≤ b) nums).get ⟨_, h95⟩,
    (List.insertionSort (fun a b : ℚ => a ≤ b) nums).get ⟨_, h99⟩, ?_, ?_, ?_⟩
  · simp only [percentiles, hne, Bool.false_eq_true, if_false, List.map_cons, List.map_nil]
    rw [List.get?_eq_get h50, List.get?_eq_get h95, List.get?_eq_get h99]
  · exact sorted_get_le _ hsorted _ _ m1 h95
  · exact sorted_get_le _ hsorted _ _ m2 h99

/-- Witness for C9, at the sample list `[3, 1, 2]`. -/
theorem c9_percentiles_monotonic_witness :
    ∃ a b c, percentiles [3, 1, 2] [50, 95, 99] = [(50, some a), (95, some b), (99, some c)]
      ∧ a ≤ b ∧ b ≤ c :=
  c9_percentiles_monotonic [3, 1, 2] (by simp)

/-- C10: the percentile computation is total on the empty sample list: it
returns `None` for every requested percentile and performs no division or
indexing at all. -/
theorem c10_percentiles_empty_total (ps : List Nat) :
    percentiles [] ps = ps.map (fun p => (p, none)) := rfl

end Reniec
